import Mathlib

/-!
Shallow embedding of the crypto-price-alerts core (Go) and proofs of its
specified properties.

The embedding follows the source files:
  pkg/models/alert.go, pkg/models/tick.go   (data model, Alert.ShouldTrigger)
  internal/alerts/store.go                  (Store: map + symbol index)
  internal/alerts/engine.go                 (rule engine: cooldown, trigger)
  internal/alerts/trigger_bus.go            (trigger fan-out bus)
  internal/pubsub/broker.go                 (tick fan-out broker)

Modelling conventions:
  - Go `float64` prices/thresholds are modelled as rationals; the claims
    under study are about the comparison logic, not about binary rounding.
  - Go `time.Time` / `time.Duration` are modelled as integers (e.g. seconds);
    `time.Since(t)` at current instant `now` is `now - t`.
  - Go maps are modelled as association lists with Go-map semantics
    (at most one binding per key; assignment replaces, delete removes).
  - Stateful methods become explicit state passing: a Go method that
    mutates its receiver and returns `(T, error)` becomes a Lean function
    returning `Except StoreErr T × Store`.
  - A Go channel is a bounded buffer plus a closed flag.  A non-blocking
    `select` send with a `default` branch appends when there is room, drops
    when full, and panics when the channel is closed; the panic is modelled
    as `Option.none`.
-/

set_option autoImplicit false

namespace CryptoAlerts

/-! ### Association-list primitives modelling Go maps -/

/-- Go map lookup `m[key]` (first binding wins; with unique keys this is
exactly Go map semantics). -/
def lookupA {β : Type} : List (String × β) → String → Option β
  | [], _ => none
  | p :: rest, key => if p.1 = key then some p.2 else lookupA rest key

/-- Go map assignment `m[key] = val`: replaces the existing binding in place,
or appends a new binding. -/
def insertA {β : Type} : List (String × β) → String → β → List (String × β)
  | [], key, val => [(key, val)]
  | p :: rest, key, val =>
      if p.1 = key then (key, val) :: rest else p :: insertA rest key val

/-- Go map deletion `delete(m, key)`: removes the binding for `key`. -/
def eraseA {β : Type} : List (String × β) → String → List (String × β)
  | [], _ => []
  | p :: rest, key => if p.1 = key then eraseA rest key else p :: eraseA rest key

/-- Keys of an association list. -/
def keysA {β : Type} (l : List (String × β)) : List String := l.map Prod.fst

/-- Removal of the first occurrence of an element from a slice, as done by
`append(alertIDs[:i], alertIDs[i+1:]...)` after a linear scan with `break`
in `Store.removeFromSymbolIndex`. -/
def removeFirst : List String → String → List String
  | [], _ => []
  | x :: xs, id => if x = id then xs else x :: removeFirst xs id

/-! ### Data model (pkg/models/alert.go, pkg/models/tick.go) -/

/-- Comparator for an alert (`models.Comparator`); `unspecified` is the
zero-value sentinel `ComparatorUnspecified`. -/
inductive Comparator where
  | unspecified
  | gt
  | gte
  | lt
  | lte
  | eq
deriving DecidableEq, Repr

/-- A price alert rule (`models.Alert`).  `lastTrigger` is the optional
last-trigger timestamp (`*time.Time`, `nil` modelled as `none`). -/
structure Alert where
  id : String
  symbol : String
  comparator : Comparator
  threshold : ℚ
  note : String
  enabled : Bool
  lastTrigger : Option Int
deriving DecidableEq, Repr

/-- Absolute value helper from pkg/models/alert.go (`func abs`). -/
def floatAbs (x : ℚ) : ℚ := if x < 0 then -x else x

/-- Epsilon used by the EQ comparator (`const epsilon = 0.001`). -/
def epsilon : ℚ := 1 / 1000

/-- Evaluation of an alert against a price (`Alert.ShouldTrigger`). -/
def Alert.shouldTrigger (a : Alert) (price : ℚ) : Bool :=
  if !a.enabled then
    false
  else
    match a.comparator with
    | .gt => decide (price > a.threshold)
    | .gte => decide (price ≥ a.threshold)
    | .lt => decide (price < a.threshold)
    | .lte => decide (price ≤ a.threshold)
    | .eq => decide (floatAbs (price - a.threshold) < epsilon)
    | .unspecified => false

/-- A price observation (`models.Tick`). -/
structure Tick where
  symbol : String
  price : ℚ
  timestamp : Int
deriving DecidableEq, Repr

/-- A triggered-alert event (`models.AlertTrigger`); the `alert` field holds
the snapshot passed to `NewAlertTrigger`. -/
structure AlertTrigger where
  alert : Alert
  triggeredPrice : ℚ
  timestamp : Int
deriving DecidableEq, Repr

/-- Specification-side predicate: the comparator of an alert holds for a
(price, threshold) pair, as worded in the spec (GT iff price>threshold, GTE
iff price>=threshold, LT iff price<threshold, LTE iff price<=threshold, EQ
iff the absolute difference is below 0.001).  The unspecified sentinel never
holds. -/
def comparatorHolds (c : Comparator) (price threshold : ℚ) : Prop :=
  match c with
  | .unspecified => False
  | .gt => price > threshold
  | .gte => price ≥ threshold
  | .lt => price < threshold
  | .lte => price ≤ threshold
  | .eq => |price - threshold| < 1 / 1000

instance (c : Comparator) (price threshold : ℚ) :
    Decidable (comparatorHolds c price threshold) := by
  unfold comparatorHolds
  cases c <;> infer_instance

/-! ### Alert store (internal/alerts/store.go) -/

/-- Store errors (`ErrAlertNotFound`, `ErrAlertExists`). -/
inductive StoreErr where
  | notFound
  | alreadyExists
deriving DecidableEq, Repr

/-- The alert store state: the primary id-to-alert map (`alerts`) and the
symbol-to-ids index (`symbolIndex`).  The mutex only serializes access and
has no sequential content. -/
structure Store where
  alerts : List (String × Alert)
  symbolIndex : List (String × List String)
deriving DecidableEq, Repr

/-- A fresh store (`NewStore`). -/
def Store.emptyStore : Store := { alerts := [], symbolIndex := [] }

/-- `Store.addToSymbolIndex`: appends the id to the symbol's bucket unless it
is already present; creates a singleton bucket for a new symbol. -/
def Store.addToSymbolIndex (idx : List (String × List String))
    (symbol alertID : String) : List (String × List String) :=
  match lookupA idx symbol with
  | some alertIDs =>
      if alertID ∈ alertIDs then idx
      else insertA idx symbol (alertIDs ++ [alertID])
  | none => insertA idx symbol [alertID]

/-- `Store.removeFromSymbolIndex`: removes the first occurrence of the id from
the symbol's bucket (no-op for an unknown symbol) and deletes the bucket when
it becomes empty. -/
def Store.removeFromSymbolIndex (idx : List (String × List String))
    (symbol alertID : String) : List (String × List String) :=
  match lookupA idx symbol with
  | none => idx
  | some alertIDs =>
      let alertIDs' := removeFirst alertIDs alertID
      if alertIDs' = [] then eraseA idx symbol
      else insertA idx symbol alertIDs'

/-- `Store.Create`: rejects an id collision with AlreadyExists, otherwise
inserts into the map and the symbol index. -/
def Store.create (s : Store) (alert : Alert) : Except StoreErr Unit × Store :=
  match lookupA s.alerts alert.id with
  | some _ => (.error .alreadyExists, s)
  | none =>
      (.ok (),
       { alerts := insertA s.alerts alert.id alert,
         symbolIndex := Store.addToSymbolIndex s.symbolIndex alert.symbol alert.id })

/-- `Store.Get`: NotFound for an unknown id, otherwise the stored alert (the
Go code returns the dereferenced copy `alertCopy := *alert`; in this value
model the copy is the value itself). -/
def Store.get (s : Store) (id : String) : Except StoreErr Alert :=
  match lookupA s.alerts id with
  | none => .error .notFound
  | some alert => .ok alert

/-- The update set passed to `Store.Update`: a Go `map[string]interface{}`
holds each of the five recognised field keys at most once, and a value of the
wrong dynamic type is skipped by the type assertion, so the set is faithfully
a record of optional field values. -/
structure AlertUpdates where
  symbol : Option String
  comparator : Option Comparator
  threshold : Option ℚ
  note : Option String
  enabled : Option Bool

/-- The field loop of `Store.Update`: each recognised field present in the
update set overwrites the alert's field; `ID` and `LastTrigger` have no case
and are untouched. -/
def applyUpdates (a : Alert) (u : AlertUpdates) : Alert :=
  { a with
    symbol := u.symbol.getD a.symbol,
    comparator := u.comparator.getD a.comparator,
    threshold := u.threshold.getD a.threshold,
    note := u.note.getD a.note,
    enabled := u.enabled.getD a.enabled }

/-- `Store.Update`: NotFound for an unknown id; otherwise applies the present
fields, re-indexes when the symbol changed (remove from the old bucket, add
to the new one), and returns a copy of the updated alert. -/
def Store.update (s : Store) (id : String) (u : AlertUpdates) :
    Except StoreErr Alert × Store :=
  match lookupA s.alerts id with
  | none => (.error .notFound, s)
  | some alert =>
      let oldSymbol := alert.symbol
      let alert' := applyUpdates alert u
      let idx :=
        if oldSymbol ≠ alert'.symbol then
          Store.addToSymbolIndex
            (Store.removeFromSymbolIndex s.symbolIndex oldSymbol id)
            alert'.symbol id
        else s.symbolIndex
      (.ok alert',
       { alerts := insertA s.alerts id alert', symbolIndex := idx })

/-- `Store.Delete`: NotFound for an unknown id; otherwise removes from the
symbol index and from the primary map. -/
def Store.delete (s : Store) (id : String) : Except StoreErr Unit × Store :=
  match lookupA s.alerts id with
  | none => (.error .notFound, s)
  | some alert =>
      (.ok (),
       { alerts := eraseA s.alerts id,
         symbolIndex := Store.removeFromSymbolIndex s.symbolIndex alert.symbol id })

/-- `Store.GetAll`: copies of all stored alerts. -/
def Store.getAll (s : Store) : List Alert := s.alerts.map Prod.snd

/-- `Store.GetBySymbol`: for an unknown symbol the empty slice; otherwise the
copies of the alerts found in the map for every id in the symbol's bucket. -/
def Store.getBySymbol (s : Store) (symbol : String) : List Alert :=
  match lookupA s.symbolIndex symbol with
  | none => []
  | some alertIDs => alertIDs.filterMap (fun id => lookupA s.alerts id)

/-- `Store.GetEnabledBySymbol`: as `GetBySymbol` but keeping only enabled
alerts. -/
def Store.getEnabledBySymbol (s : Store) (symbol : String) : List Alert :=
  match lookupA s.symbolIndex symbol with
  | none => []
  | some alertIDs =>
      alertIDs.filterMap (fun id =>
        match lookupA s.alerts id with
        | some alert => if alert.enabled then some alert else none
        | none => none)

/-- `Store.MarkTriggered` (via `Alert.MarkTriggered`): NotFound for an unknown
id; otherwise sets the alert's lastTrigger to the current time `now`. -/
def Store.markTriggered (s : Store) (id : String) (now : Int) :
    Except StoreErr Unit × Store :=
  match lookupA s.alerts id with
  | none => (.error .notFound, s)
  | some alert =>
      (.ok (),
       { s with alerts := insertA s.alerts id { alert with lastTrigger := some now } })

/-! ### Channels and lifecycle (Go buffered channels, non-blocking select) -/

/-- A Go buffered channel: bounded buffer, capacity, and closed flag. -/
structure Chan (α : Type) where
  buf : List α
  capacity : Nat
  closed : Bool
deriving DecidableEq, Repr

/-- A fresh open channel of the given capacity (`make(chan T, capacity)`). -/
def Chan.mk' {α : Type} (capacity : Nat) : Chan α :=
  { buf := [], capacity := capacity, closed := false }

/-- Non-blocking send `select (case ch <- v) default`: on a closed channel the
send case is taken and panics (`none`); otherwise the item is appended when
there is room and dropped when the buffer is full. -/
def Chan.trySend {α : Type} (ch : Chan α) (v : α) : Option (Chan α) :=
  if ch.closed then none
  else if ch.buf.length < ch.capacity then some { ch with buf := ch.buf ++ [v] }
  else some ch

/-! ### Rule engine (internal/alerts/engine.go) -/

/-- The rule engine state: the bounded tick queue, lifecycle flags, and the
per-alert cooldown map (alert id to last trigger time) with the configured
cooldown duration.  The store and trigger bus the engine points to are passed
explicitly to the functions that touch them. -/
structure Engine where
  tickChan : Chan Tick
  stopChanClosed : Bool
  running : Bool
  cooldownMap : List (String × Int)
  cooldown : Int
deriving DecidableEq, Repr

/-- `NewEngine`: queue capacity 1000, empty cooldown map, not running. -/
def Engine.new (cooldown : Int) : Engine :=
  { tickChan := Chan.mk' 1000, stopChanClosed := false, running := false,
    cooldownMap := [], cooldown := cooldown }

/-- `Engine.Start`: idempotently sets the running flag (the dispatch loop it
launches is modelled by explicit calls to `evaluateAlertTick`). -/
def Engine.start (e : Engine) : Engine :=
  if e.running then e else { e with running := true }

/-- `Engine.Stop`: no-op unless running; otherwise clears the flag and closes
both the stop channel and the tick queue. -/
def Engine.stop (e : Engine) : Engine :=
  if !e.running then e
  else
    { e with running := false, stopChanClosed := true,
             tickChan := { e.tickChan with closed := true } }

/-- `Engine.ProcessTick`: non-blocking send of the tick into the bounded
queue; drops the tick (logging a warning) when the queue is full; `none`
models the Go panic of a send on a closed channel. -/
def Engine.processTick (e : Engine) (tick : Tick) : Option Engine :=
  (e.tickChan.trySend tick).map (fun ch => { e with tickChan := ch })

/-- `Engine.shouldTriggerAlert`: the alert's own evaluation must pass, and the
cooldown map must either have no entry for the alert id or an entry whose
elapsed time (`time.Since lastTrigger = now - lastTrigger`) is at least the
configured cooldown. -/
def Engine.shouldTriggerAlert (e : Engine) (alert : Alert) (price : ℚ)
    (now : Int) : Bool :=
  if !alert.shouldTrigger price then false
  else
    match lookupA e.cooldownMap alert.id with
    | some lastTrigger => if now - lastTrigger < e.cooldown then false else true
    | none => true

/-- Result of `Engine.triggerAlert`: the updated engine and store, the list of
triggers passed to `triggerBus.Publish` (in call order), and whether the
`MarkTriggered` error branch logged. -/
structure TriggerResult where
  engine : Engine
  store : Store
  published : List AlertTrigger
  loggedError : Bool
deriving Repr

/-- `Engine.triggerAlert`: records the current time against the alert id in
the cooldown map, calls `Store.MarkTriggered` (a failure is logged and
otherwise ignored), constructs the `AlertTrigger`, and publishes it to the
trigger bus.  The function is total: no branch aborts the dispatch loop. -/
def Engine.triggerAlert (e : Engine) (s : Store) (alert : Alert) (price : ℚ)
    (now : Int) : TriggerResult :=
  let e' := { e with cooldownMap := insertA e.cooldownMap alert.id now }
  let marked := s.markTriggered alert.id now
  let logged := match marked.1 with
    | .error _ => true
    | .ok _ => false
  let trigger : AlertTrigger :=
    { alert := alert, triggeredPrice := price, timestamp := now }
  { engine := e', store := marked.2, published := [trigger], loggedError := logged }

/-- Body of the per-alert loop of `Engine.evaluateTick`: trigger the alert
when `shouldTriggerAlert` passes, otherwise leave every state unchanged. -/
def Engine.evaluateAlertTick (e : Engine) (s : Store) (alert : Alert)
    (price : ℚ) (now : Int) : TriggerResult :=
  if e.shouldTriggerAlert alert price now then e.triggerAlert s alert price now
  else { engine := e, store := s, published := [], loggedError := false }

/-- Observation of the engine on two consecutive ticks carrying prices `p1`
at time `t1` and `p2` at time `t2` for the same alert: the number of triggers
published to the trigger bus across both dispatch-loop iterations. -/
def Engine.twoTickTriggerCount (e : Engine) (s : Store) (a : Alert)
    (p1 p2 : ℚ) (t1 t2 : Int) : Nat :=
  let r1 := e.evaluateAlertTick s a p1 t1
  let r2 := r1.engine.evaluateAlertTick r1.store a p2 t2
  (r1.published ++ r2.published).length

/-! ### Tick broker (internal/pubsub/broker.go) -/

/-- A broker subscriber: interest set (a Go `map[string]bool` built by
`NewSubscriber` with every listed symbol mapped to true), bounded inbox, and
the cancellation flag of its context. -/
structure Subscriber where
  id : String
  symbols : List String
  inbox : Chan Tick
  ctxCancelled : Bool
deriving DecidableEq, Repr

/-- `NewSubscriber`. -/
def Subscriber.new (id : String) (symbols : List String) (bufferSize : Nat) :
    Subscriber :=
  { id := id, symbols := symbols, inbox := Chan.mk' bufferSize,
    ctxCancelled := false }

/-- `Subscriber.Close`: cancels the context and closes the inbox. -/
def Subscriber.close (sub : Subscriber) : Subscriber :=
  { sub with ctxCancelled := true, inbox := { sub.inbox with closed := true } }

/-- `Subscriber.IsInterestedIn`. -/
def Subscriber.isInterestedIn (sub : Subscriber) (symbol : String) : Bool :=
  sub.symbols.contains symbol

/-- The tick broker: subscriber registry, bounded tick queue, lifecycle. -/
structure Broker where
  subscribers : List (String × Subscriber)
  tickChan : Chan Tick
  stopChanClosed : Bool
  running : Bool
deriving DecidableEq, Repr

/-- `NewBroker`: queue capacity 10000. -/
def Broker.new : Broker :=
  { subscribers := [], tickChan := Chan.mk' 10000, stopChanClosed := false,
    running := false }

/-- `Broker.Subscribe`: closes a previous subscriber registered under the same
id and replaces it with a fresh one. -/
def Broker.subscribe (b : Broker) (subscriberID : String)
    (symbols : List String) (bufferSize : Nat) : Broker :=
  { b with
    subscribers := insertA b.subscribers subscriberID
      (Subscriber.new subscriberID symbols bufferSize) }

/-- `Broker.Unsubscribe`: closes and removes the subscriber when present. -/
def Broker.unsubscribe (b : Broker) (subscriberID : String) : Broker :=
  { b with subscribers := eraseA b.subscribers subscriberID }

/-- `Broker.Publish`: non-blocking send into the bounded queue; a full queue
drops the tick; `none` models the panic of a send on a closed channel. -/
def Broker.publish (b : Broker) (tick : Tick) : Option Broker :=
  (b.tickChan.trySend tick).map (fun ch => { b with tickChan := ch })

/-- One subscriber's branch of `Broker.fanOutTick`: an uninterested subscriber
is skipped; an interested one receives the tick by non-blocking send (a full
inbox drops the tick for that subscriber only; a cancelled context takes the
`ctx.Done` branch and skips — under the broker's locks a subscriber still in
the registry is never closed). -/
def Subscriber.deliverTick (sub : Subscriber) (tick : Tick) : Subscriber :=
  if sub.isInterestedIn tick.symbol then
    if sub.ctxCancelled then sub
    else if sub.inbox.buf.length < sub.inbox.capacity then
      { sub with inbox := { sub.inbox with buf := sub.inbox.buf ++ [tick] } }
    else sub
  else sub

/-- `Broker.fanOutTick`: delivers the tick to every registered subscriber via
its per-subscriber branch. -/
def Broker.fanOutTick (b : Broker) (tick : Tick) : Broker :=
  { b with subscribers :=
      b.subscribers.map (fun p => (p.1, p.2.deliverTick tick)) }

/-- `Broker.Stop`: no-op unless running; otherwise clears the flag, closes the
stop channel, closes every subscriber, and closes the tick queue. -/
def Broker.stop (b : Broker) : Broker :=
  if !b.running then b
  else
    { b with running := false, stopChanClosed := true,
             subscribers := b.subscribers.map (fun p => (p.1, p.2.close)),
             tickChan := { b.tickChan with closed := true } }

/-! ### Trigger bus (internal/alerts/trigger_bus.go) -/

/-- A trigger-bus subscriber (`TriggerSubscriber`): no symbol filter. -/
structure TriggerSubscriber where
  id : String
  triggerChan : Chan AlertTrigger
  ctxCancelled : Bool
deriving DecidableEq, Repr

/-- The trigger bus: subscriber registry, bounded trigger queue, lifecycle. -/
structure TriggerBus where
  subscribers : List (String × TriggerSubscriber)
  triggerChan : Chan AlertTrigger
  stopChanClosed : Bool
  running : Bool
deriving DecidableEq, Repr

/-- `NewTriggerBus`: queue capacity 1000. -/
def TriggerBus.new : TriggerBus :=
  { subscribers := [], triggerChan := Chan.mk' 1000, stopChanClosed := false,
    running := false }

/-- `TriggerSubscriber.Close`: cancels the context and closes the channel. -/
def TriggerSubscriber.close (sub : TriggerSubscriber) : TriggerSubscriber :=
  { sub with ctxCancelled := true,
             triggerChan := { sub.triggerChan with closed := true } }

/-- `TriggerBus.Publish`: non-blocking send into the bounded queue. -/
def TriggerBus.publish (tb : TriggerBus) (trigger : AlertTrigger) :
    Option TriggerBus :=
  (tb.triggerChan.trySend trigger).map (fun ch => { tb with triggerChan := ch })

/-- `TriggerBus.Stop`: no-op unless running; otherwise clears the flag, closes
the stop channel, closes every subscriber's channel, and closes the trigger
queue. -/
def TriggerBus.stop (tb : TriggerBus) : TriggerBus :=
  if !tb.running then tb
  else
    { tb with
      running := false, stopChanClosed := true,
      subscribers := tb.subscribers.map (fun p => (p.1, p.2.close)),
      triggerChan := { tb.triggerChan with closed := true } }

/-! ### Pointer-level model of the Store's defensive copy (for the
LastTrigger aliasing analysis)

In Go, `Alert.LastTrigger` has type `*time.Time`.  `Store.Get` executes
`alertCopy := *alert`, a shallow struct copy: every value field is copied,
but the `LastTrigger` field copies the pointer, so the copy and the stored
alert point at the same `time.Time` cell.  To analyse what a caller can reach
through that pointer, this model makes the pointer explicit: a `PtrAlert`
stores an address into a time heap. -/

/-- A heap of `time.Time` cells, addressed by allocation id. -/
abbrev TimeHeap := List (Nat × Int)

/-- Heap addresses are naturals; `lookupH`/`writeH` are plain heap access. -/
def lookupH : TimeHeap → Nat → Option Int
  | [], _ => none
  | p :: rest, ptr => if p.1 = ptr then some p.2 else lookupH rest ptr

/-- Writing a value through a heap address (`*p = t`). -/
def writeH : TimeHeap → Nat → Int → TimeHeap
  | [], _, _ => []
  | p :: rest, ptr, t =>
      if p.1 = ptr then (ptr, t) :: rest else p :: writeH rest ptr t

/-- An alert as laid out in Go memory: `lastTrigger` is a pointer (`none` is
`nil`). -/
structure PtrAlert where
  id : String
  symbol : String
  comparator : Comparator
  threshold : ℚ
  note : String
  enabled : Bool
  lastTrigger : Option Nat
deriving DecidableEq, Repr

/-- The defensive copy performed by `Store.Get` (`alertCopy := *alert`): a
shallow struct copy — the returned value is field-for-field identical,
including the `lastTrigger` pointer. -/
def shallowCopy (a : PtrAlert) : PtrAlert := a

/-- `Store.Get` on the pointer-level store: NotFound or the shallow copy. -/
def ptrGet (alerts : List (String × PtrAlert)) (id : String) :
    Except StoreErr PtrAlert :=
  match lookupA alerts id with
  | none => .error .notFound
  | some alert => .ok (shallowCopy alert)

/-- The last-trigger time an alert currently denotes, read through its
pointer. -/
def readLastTrigger (heap : TimeHeap) (a : PtrAlert) : Option Int :=
  a.lastTrigger.bind (lookupH heap)

/-- A caller-side mutation through the copy's `lastTrigger` pointer
(`*copy.LastTrigger = t`); `nil` pointers leave the heap unchanged. -/
def writeThroughLastTrigger (heap : TimeHeap) (copy : PtrAlert) (t : Int) :
    TimeHeap :=
  match copy.lastTrigger with
  | none => heap
  | some ptr => writeH heap ptr t

/-! ### Store invariant and reachability -/

/-- The alert id appears in the symbol's bucket of the index. -/
def InIdx (idx : List (String × List String)) (sym id : String) : Prop :=
  ∃ ids, lookupA idx sym = some ids ∧ id ∈ ids

/-- Buckets of a symbol index are never empty and never hold an id twice. -/
def BucketsOk (idx : List (String × List String)) : Prop :=
  ∀ sym ids, lookupA idx sym = some ids → ids ≠ [] ∧ ids.Nodup

/-- Well-formedness of a store state: unique keys in both maps, buckets
non-empty and duplicate-free, and the two consistency directions between the
symbol index and the primary map. -/
def Store.Wf (s : Store) : Prop :=
  (keysA s.alerts).Nodup ∧
  (keysA s.symbolIndex).Nodup ∧
  BucketsOk s.symbolIndex ∧
  (∀ sym id, InIdx s.symbolIndex sym id →
      ∃ a, lookupA s.alerts id = some a ∧ a.symbol = sym) ∧
  (∀ id a, lookupA s.alerts id = some a → InIdx s.symbolIndex a.symbol id)

/-- Store states reachable from the empty store by any sequence of Create,
Update, Delete, and MarkTriggered operations (each step keeps the state an
operation leaves behind, whether the operation succeeded or failed). -/
inductive Store.Reachable : Store → Prop where
  | empty : Store.Reachable Store.emptyStore
  | create {s : Store} (a : Alert) (h : Store.Reachable s) :
      Store.Reachable (s.create a).2
  | update {s : Store} (id : String) (u : AlertUpdates) (h : Store.Reachable s) :
      Store.Reachable (s.update id u).2
  | delete {s : Store} (id : String) (h : Store.Reachable s) :
      Store.Reachable (s.delete id).2
  | markTriggered {s : Store} (id : String) (now : Int) (h : Store.Reachable s) :
      Store.Reachable (s.markTriggered id now).2

/-! ### Concrete example values used to instantiate the theorems -/

/-- A concrete enabled alert. -/
def alertEx : Alert :=
  { id := "a1", symbol := "BTC", comparator := .gt, threshold := 50000,
    note := "", enabled := true, lastTrigger := none }

/-- A concrete disabled alert. -/
def alertDisabledEx : Alert :=
  { id := "a2", symbol := "BTC", comparator := .gt, threshold := 50000,
    note := "", enabled := false, lastTrigger := none }

/-- The store holding exactly `alertEx`. -/
def storeEx : Store := (Store.emptyStore.create alertEx).2

/-- A concrete update set renaming the symbol to ETH. -/
def updatesEx : AlertUpdates :=
  { symbol := some "ETH", comparator := none, threshold := none, note := none,
    enabled := none }

/-- A concrete tick. -/
def tickEx : Tick := { symbol := "BTC", price := 50001, timestamp := 0 }

/-- A running engine with cooldown 30. -/
def engineEx : Engine := { Engine.new 30 with running := true }

/-- A running broker with one subscriber interested only in ETH. -/
def brokerEx : Broker :=
  { Broker.new.subscribe "sub1" ["ETH"] 10 with running := true }

/-- A running trigger bus. -/
def busEx : TriggerBus := { TriggerBus.new with running := true }

/-- A concrete alert trigger. -/
def triggerEx : AlertTrigger :=
  { alert := alertEx, triggeredPrice := 50001, timestamp := 0 }

/-- A pointer-level alert whose lastTrigger points at heap cell 0. -/
def ptrAlertEx : PtrAlert :=
  { id := "a1", symbol := "BTC", comparator := .gt, threshold := 50000,
    note := "", enabled := true, lastTrigger := some 0 }

/-- The pointer-level alerts map holding exactly `ptrAlertEx`. -/
def ptrStoreEx : List (String × PtrAlert) := [("a1", ptrAlertEx)]

/-- A heap whose cell 0 holds the time 100. -/
def heapEx : TimeHeap := [(0, 100)]

/-! ### Lemmas about the Go-map primitives -/

theorem lookupA_insertA_self {β : Type} (l : List (String × β)) (k : String)
    (v : β) : lookupA (insertA l k v) k = some v := by
  induction l with
  | nil => simp [insertA, lookupA]
  | cons p rest ih =>
      by_cases h : p.1 = k
      · simp [insertA, h, lookupA]
      · simp [insertA, h, lookupA, ih]

theorem lookupA_insertA_ne {β : Type} (l : List (String × β)) (k k' : String)
    (v : β) (h : k' ≠ k) : lookupA (insertA l k v) k' = lookupA l k' := by
  induction l with
  | nil =>
      show (if k = k' then some v else lookupA [] k') = none
      rw [if_neg (Ne.symm h)]
      rfl
  | cons p rest ih =>
      by_cases hp : p.1 = k
      · show lookupA (if p.1 = k then (k, v) :: rest else p :: insertA rest k v) k'
            = lookupA (p :: rest) k'
        rw [if_pos hp]
        show (if k = k' then some v else lookupA rest k')
            = if p.1 = k' then some p.2 else lookupA rest k'
        rw [if_neg (Ne.symm h), if_neg (fun hh : p.1 = k' => h (hh ▸ hp ▸ rfl))]
      · show lookupA (if p.1 = k then (k, v) :: rest else p :: insertA rest k v) k'
            = lookupA (p :: rest) k'
        rw [if_neg hp]
        show (if p.1 = k' then some p.2 else lookupA (insertA rest k v) k')
            = if p.1 = k' then some p.2 else lookupA rest k'
        rw [ih]

theorem lookupA_eraseA_self {β : Type} (l : List (String × β)) (k : String) :
    lookupA (eraseA l k) k = none := by
  induction l with
  | nil => rfl
  | cons p rest ih =>
      by_cases h : p.1 = k
      · show lookupA (if p.1 = k then eraseA rest k else p :: eraseA rest k) k = none
        rw [if_pos h]
        exact ih
      · show lookupA (if p.1 = k then eraseA rest k else p :: eraseA rest k) k = none
        rw [if_neg h]
        show (if p.1 = k then some p.2 else lookupA (eraseA rest k) k) = none
        rw [if_neg h]
        exact ih

theorem lookupA_eraseA_ne {β : Type} (l : List (String × β)) (k k' : String)
    (h : k' ≠ k) : lookupA (eraseA l k) k' = lookupA l k' := by
  induction l with
  | nil => rfl
  | cons p rest ih =>
      by_cases hp : p.1 = k
      · show lookupA (if p.1 = k then eraseA rest k else p :: eraseA rest k) k'
            = lookupA (p :: rest) k'
        rw [if_pos hp]
        show lookupA (eraseA rest k) k' = if p.1 = k' then some p.2 else lookupA rest k'
        rw [if_neg (fun hh : p.1 = k' => h (hh ▸ hp ▸ rfl)), ih]
      · show lookupA (if p.1 = k then eraseA rest k else p :: eraseA rest k) k'
            = lookupA (p :: rest) k'
        rw [if_neg hp]
        show (if p.1 = k' then some p.2 else lookupA (eraseA rest k) k')
            = if p.1 = k' then some p.2 else lookupA rest k'
        rw [ih]

theorem keysA_insertA_mem {β : Type} (l : List (String × β)) (k k' : String)
    (v : β) (h : k' ∈ keysA (insertA l k v)) : k' ∈ keysA l ∨ k' = k := by
  induction l with
  | nil =>
      right
      simpa [insertA, keysA] using h
  | cons p rest ih =>
      by_cases hp : p.1 = k
      · rw [show insertA (p :: rest) k v = (k, v) :: rest from if_pos hp] at h
        simp only [keysA, List.map_cons, List.mem_cons] at h ⊢
        rcases h with h | h
        · exact Or.inr h
        · exact Or.inl (Or.inr h)
      · rw [show insertA (p :: rest) k v = p :: insertA rest k v from if_neg hp] at h
        simp only [keysA, List.map_cons, List.mem_cons] at h ⊢
        rcases h with h | h
        · exact Or.inl (Or.inl h)
        · rcases ih h with h' | h'
          · exact Or.inl (Or.inr h')
          · exact Or.inr h'

theorem keysA_insertA_nodup {β : Type} (l : List (String × β)) (k : String)
    (v : β) (h : (keysA l).Nodup) : (keysA (insertA l k v)).Nodup := by
  induction l with
  | nil => simp [insertA, keysA]
  | cons p rest ih =>
      by_cases hp : p.1 = k
      · rw [show insertA (p :: rest) k v = (k, v) :: rest from if_pos hp]
        simp only [keysA, List.map_cons, List.nodup_cons] at h ⊢
        exact ⟨hp ▸ h.1, h.2⟩
      · rw [show insertA (p :: rest) k v = p :: insertA rest k v from if_neg hp]
        simp only [keysA, List.map_cons, List.nodup_cons] at h ⊢
        refine ⟨?_, ih h.2⟩
        intro hmem
        rcases keysA_insertA_mem rest k p.1 v hmem with h' | h'
        · exact h.1 h'
        · exact hp h'

theorem keysA_eraseA_mem {β : Type} (l : List (String × β)) (k k' : String)
    (h : k' ∈ keysA (eraseA l k)) : k' ∈ keysA l := by
  induction l with
  | nil => exact h
  | cons p rest ih =>
      by_cases hp : p.1 = k
      · rw [show eraseA (p :: rest) k = eraseA rest k from if_pos hp] at h
        exact List.mem_cons.mpr (Or.inr (ih h))
      · rw [show eraseA (p :: rest) k = p :: eraseA rest k from if_neg hp] at h
        simp only [keysA, List.map_cons, List.mem_cons] at h ⊢
        rcases h with h | h
        · exact Or.inl h
        · exact Or.inr (ih h)

theorem keysA_eraseA_nodup {β : Type} (l : List (String × β)) (k : String)
    (h : (keysA l).Nodup) : (keysA (eraseA l k)).Nodup := by
  induction l with
  | nil => simp [eraseA, keysA]
  | cons p rest ih =>
      simp only [keysA, List.map_cons, List.nodup_cons] at h
      by_cases hp : p.1 = k
      · rw [show eraseA (p :: rest) k = eraseA rest k from if_pos hp]
        exact ih h.2
      · rw [show eraseA (p :: rest) k = p :: eraseA rest k from if_neg hp]
        simp only [keysA, List.map_cons, List.nodup_cons]
        refine ⟨?_, ih h.2⟩
        intro hmem
        exact h.1 (keysA_eraseA_mem rest k p.1 hmem)

theorem removeFirst_mem {l : List String} {x id : String}
    (h : x ∈ removeFirst l id) : x ∈ l := by
  induction l with
  | nil => exact h
  | cons y ys ih =>
      by_cases hy : y = id
      · rw [show removeFirst (y :: ys) id = ys from if_pos hy] at h
        exact List.mem_cons.mpr (Or.inr h)
      · rw [show removeFirst (y :: ys) id = y :: removeFirst ys id from if_neg hy] at h
        rcases List.mem_cons.mp h with h | h
        · exact List.mem_cons.mpr (Or.inl h)
        · exact List.mem_cons.mpr (Or.inr (ih h))

theorem mem_removeFirst_iff {l : List String} {x id : String} (hnd : l.Nodup) :
    x ∈ removeFirst l id ↔ (x ∈ l ∧ x ≠ id) := by
  induction l with
  | nil => simp [removeFirst]
  | cons y ys ih =>
      simp only [List.nodup_cons] at hnd
      by_cases hy : y = id
      · subst hy
        rw [show removeFirst (y :: ys) y = ys from if_pos rfl]
        simp only [List.mem_cons]
        constructor
        · intro hx
          refine ⟨Or.inr hx, ?_⟩
          intro hxy
          exact hnd.1 (hxy ▸ hx)
        · rintro ⟨hx | hx, hne⟩
          · exact absurd hx hne
          · exact hx
      · rw [show removeFirst (y :: ys) id = y :: removeFirst ys id from if_neg hy]
        simp only [List.mem_cons, ih hnd.2]
        constructor
        · rintro (hx | ⟨hx, hne⟩)
          · exact ⟨Or.inl hx, hx ▸ hy⟩
          · exact ⟨Or.inr hx, hne⟩
        · rintro ⟨hx | hx, hne⟩
          · exact Or.inl hx
          · exact Or.inr ⟨hx, hne⟩

theorem removeFirst_nodup {l : List String} {id : String} (h : l.Nodup) :
    (removeFirst l id).Nodup := by
  induction l with
  | nil => simp [removeFirst]
  | cons y ys ih =>
      simp only [List.nodup_cons] at h
      by_cases hy : y = id
      · rw [show removeFirst (y :: ys) id = ys from if_pos hy]
        exact h.2
      · rw [show removeFirst (y :: ys) id = y :: removeFirst ys id from if_neg hy]
        refine List.nodup_cons.mpr ⟨?_, ih h.2⟩
        intro hmem
        exact h.1 (removeFirst_mem hmem)

/-! ### Characterisation of the symbol-index helpers -/

theorem add_lookup_self_none (idx : List (String × List String)) (sym id : String)
    (h : lookupA idx sym = none) :
    lookupA (Store.addToSymbolIndex idx sym id) sym = some [id] := by
  unfold Store.addToSymbolIndex
  rw [h]
  exact lookupA_insertA_self idx sym [id]

theorem add_eq_of_lookup_some (idx : List (String × List String)) (sym id : String)
    (ids : List String) (h : lookupA idx sym = some ids) :
    Store.addToSymbolIndex idx sym id =
      if id ∈ ids then idx else insertA idx sym (ids ++ [id]) := by
  unfold Store.addToSymbolIndex
  rw [h]

theorem add_lookup_self_some (idx : List (String × List String)) (sym id : String)
    (ids : List String) (h : lookupA idx sym = some ids) :
    lookupA (Store.addToSymbolIndex idx sym id) sym =
      some (if id ∈ ids then ids else ids ++ [id]) := by
  rw [add_eq_of_lookup_some idx sym id ids h]
  by_cases hm : id ∈ ids
  · rw [if_pos hm, if_pos hm]
    exact h
  · rw [if_neg hm, if_neg hm]
    exact lookupA_insertA_self idx sym (ids ++ [id])

theorem add_lookup_ne (idx : List (String × List String)) (sym id sym' : String)
    (h : sym' ≠ sym) :
    lookupA (Store.addToSymbolIndex idx sym id) sym' = lookupA idx sym' := by
  unfold Store.addToSymbolIndex
  cases hl : lookupA idx sym with
  | none => exact lookupA_insertA_ne idx sym sym' [id] h
  | some ids =>
      by_cases hm : id ∈ ids
      · simp [hm]
      · simp only [hm, if_neg]
        exact lookupA_insertA_ne idx sym sym' (ids ++ [id]) h

theorem add_keys_nodup (idx : List (String × List String)) (sym id : String)
    (h : (keysA idx).Nodup) :
    (keysA (Store.addToSymbolIndex idx sym id)).Nodup := by
  unfold Store.addToSymbolIndex
  cases hl : lookupA idx sym with
  | none => exact keysA_insertA_nodup idx sym [id] h
  | some ids =>
      by_cases hm : id ∈ ids
      · simpa [hm] using h
      · simp only [hm, if_neg]
        exact keysA_insertA_nodup idx sym (ids ++ [id]) h

theorem add_bucketsOk (idx : List (String × List String)) (sym id : String)
    (h : BucketsOk idx) : BucketsOk (Store.addToSymbolIndex idx sym id) := by
  intro sym' ids' hl'
  by_cases hs : sym' = sym
  · subst hs
    cases hl0 : lookupA idx sym' with
    | none =>
        rw [add_lookup_self_none idx sym' id hl0] at hl'
        simp only [Option.some.injEq] at hl'
        subst hl'
        exact ⟨by simp, by simp⟩
    | some ids =>
        rw [add_lookup_self_some idx sym' id ids hl0] at hl'
        simp only [Option.some.injEq] at hl'
        by_cases hm : id ∈ ids
        · rw [if_pos hm] at hl'
          subst hl'
          exact h sym' ids hl0
        · rw [if_neg hm] at hl'
          subst hl'
          obtain ⟨hne, hnd⟩ := h sym' ids hl0
          refine ⟨by simp, ?_⟩
          rw [List.nodup_append]
          exact ⟨hnd, List.nodup_singleton id, by simpa using hm⟩
  · rw [add_lookup_ne idx sym id sym' hs] at hl'
    exact h sym' ids' hl'

theorem inIdx_add (idx : List (String × List String)) (sym id sym' id' : String) :
    InIdx (Store.addToSymbolIndex idx sym id) sym' id' ↔
      (InIdx idx sym' id' ∨ (sym' = sym ∧ id' = id)) := by
  constructor
  · rintro ⟨ids', hl', hmem'⟩
    by_cases hs : sym' = sym
    · subst hs
      cases hl : lookupA idx sym' with
      | none =>
          rw [add_lookup_self_none idx sym' id hl] at hl'
          injection hl' with hl'
          subst hl'
          simp only [List.mem_singleton] at hmem'
          exact Or.inr ⟨rfl, hmem'⟩
      | some ids =>
          rw [add_lookup_self_some idx sym' id ids hl] at hl'
          injection hl' with hl'
          subst hl'
          by_cases hm : id ∈ ids
          · rw [if_pos hm] at hmem'
            exact Or.inl ⟨ids, hl, hmem'⟩
          · rw [if_neg hm] at hmem'
            rcases List.mem_append.mp hmem' with hmem' | hmem'
            · exact Or.inl ⟨ids, hl, hmem'⟩
            · simp only [List.mem_singleton] at hmem'
              exact Or.inr ⟨rfl, hmem'⟩
    · rw [add_lookup_ne idx sym id sym' hs] at hl'
      exact Or.inl ⟨ids', hl', hmem'⟩
  · rintro (⟨ids', hl', hmem'⟩ | ⟨hsym, hid⟩)
    · by_cases hs : sym' = sym
      · subst hs
        refine ⟨if id ∈ ids' then ids' else ids' ++ [id],
                add_lookup_self_some idx sym' id ids' hl', ?_⟩
        by_cases hm : id ∈ ids'
        · rw [if_pos hm]
          exact hmem'
        · rw [if_neg hm]
          exact List.mem_append.mpr (Or.inl hmem')
      · rw [show InIdx (Store.addToSymbolIndex idx sym id) sym' id' =
              ∃ ids, lookupA (Store.addToSymbolIndex idx sym id) sym' = some ids ∧ id' ∈ ids
            from rfl]
        rw [add_lookup_ne idx sym id sym' hs]
        exact ⟨ids', hl', hmem'⟩
    · subst hsym
      subst hid
      cases hl : lookupA idx sym' with
      | none =>
          exact ⟨[id'], add_lookup_self_none idx sym' id' hl, by simp⟩
      | some ids =>
          refine ⟨if id' ∈ ids then ids else ids ++ [id'],
                  add_lookup_self_some idx sym' id' ids hl, ?_⟩
          by_cases hm : id' ∈ ids
          · rw [if_pos hm]
            exact hm
          · rw [if_neg hm]
            exact List.mem_append.mpr (Or.inr (by simp))

theorem remove_lookup_self_none (idx : List (String × List String))
    (sym id : String) (h : lookupA idx sym = none) :
    lookupA (Store.removeFromSymbolIndex idx sym id) sym = none := by
  unfold Store.removeFromSymbolIndex
  rw [h]
  exact h

theorem remove_lookup_self_some (idx : List (String × List String))
    (sym id : String) (ids : List String) (h : lookupA idx sym = some ids) :
    lookupA (Store.removeFromSymbolIndex idx sym id) sym =
      if removeFirst ids id = [] then none else some (removeFirst ids id) := by
  unfold Store.removeFromSymbolIndex
  rw [h]
  by_cases he : removeFirst ids id = []
  · simp only [he, if_pos]
    exact lookupA_eraseA_self idx sym
  · simp only [he, if_neg]
    exact lookupA_insertA_self idx sym (removeFirst ids id)

theorem remove_lookup_ne (idx : List (String × List String)) (sym id sym' : String)
    (h : sym' ≠ sym) :
    lookupA (Store.removeFromSymbolIndex idx sym id) sym' = lookupA idx sym' := by
  unfold Store.removeFromSymbolIndex
  cases hl : lookupA idx sym with
  | none => rfl
  | some ids =>
      by_cases he : removeFirst ids id = []
      · simp only [he, if_pos]
        exact lookupA_eraseA_ne idx sym sym' h
      · simp only [he, if_neg]
        exact lookupA_insertA_ne idx sym sym' (removeFirst ids id) h

theorem remove_keys_nodup (idx : List (String × List String)) (sym id : String)
    (h : (keysA idx).Nodup) :
    (keysA (Store.removeFromSymbolIndex idx sym id)).Nodup := by
  unfold Store.removeFromSymbolIndex
  cases hl : lookupA idx sym with
  | none => exact h
  | some ids =>
      by_cases he : removeFirst ids id = []
      · simp only [he, if_pos]
        exact keysA_eraseA_nodup idx sym h
      · simp only [he, if_neg]
        exact keysA_insertA_nodup idx sym (removeFirst ids id) h

theorem remove_bucketsOk (idx : List (String × List String)) (sym id : String)
    (h : BucketsOk idx) : BucketsOk (Store.removeFromSymbolIndex idx sym id) := by
  intro sym' ids' hl'
  by_cases hs : sym' = sym
  · subst hs
    cases hl0 : lookupA idx sym' with
    | none =>
        rw [remove_lookup_self_none idx sym' id hl0] at hl'
        exact Option.noConfusion hl'
    | some ids =>
        rw [remove_lookup_self_some idx sym' id ids hl0] at hl'
        by_cases he : removeFirst ids id = []
        · rw [if_pos he] at hl'
          exact Option.noConfusion hl'
        · rw [if_neg he] at hl'
          simp only [Option.some.injEq] at hl'
          subst hl'
          exact ⟨he, removeFirst_nodup (h sym' ids hl0).2⟩
  · rw [remove_lookup_ne idx sym id sym' hs] at hl'
    exact h sym' ids' hl'

theorem inIdx_remove (idx : List (String × List String)) (sym id sym' id' : String)
    (hok : BucketsOk idx) :
    InIdx (Store.removeFromSymbolIndex idx sym id) sym' id' ↔
      (InIdx idx sym' id' ∧ ¬(sym' = sym ∧ id' = id)) := by
  constructor
  · rintro ⟨ids', hl', hmem'⟩
    by_cases hs : sym' = sym
    · subst hs
      cases hl : lookupA idx sym' with
      | none =>
          rw [remove_lookup_self_none idx sym' id hl] at hl'
          exact Option.noConfusion hl'
      | some ids =>
          have hnd : ids.Nodup := (hok sym' ids hl).2
          rw [remove_lookup_self_some idx sym' id ids hl] at hl'
          by_cases he : removeFirst ids id = []
          · rw [if_pos he] at hl'
            exact Option.noConfusion hl'
          · rw [if_neg he] at hl'
            injection hl' with hl'
            subst hl'
            rw [mem_removeFirst_iff hnd] at hmem'
            refine ⟨⟨ids, hl, hmem'.1⟩, ?_⟩
            rintro ⟨_, hid⟩
            exact hmem'.2 hid
    · rw [remove_lookup_ne idx sym id sym' hs] at hl'
      exact ⟨⟨ids', hl', hmem'⟩, fun hc => hs hc.1⟩
  · rintro ⟨⟨ids', hl', hmem'⟩, hne⟩
    by_cases hs : sym' = sym
    · subst hs
      have hnd : ids'.Nodup := (hok sym' ids' hl').2
      have hmem'' : id' ∈ removeFirst ids' id := by
        rw [mem_removeFirst_iff hnd]
        refine ⟨hmem', ?_⟩
        intro hid
        exact hne ⟨rfl, hid⟩
      have hne' : removeFirst ids' id ≠ [] := by
        intro he
        rw [he] at hmem''
        simp at hmem''
      refine ⟨removeFirst ids' id, ?_, hmem''⟩
      rw [remove_lookup_self_some idx sym' id ids' hl', if_neg hne']
    · refine ⟨ids', ?_, hmem'⟩
      rw [remove_lookup_ne idx sym id sym' hs]
      exact hl'

/-- Membership in `GetBySymbol`: exactly the alerts found in the primary map
for an id in the symbol's bucket. -/
theorem mem_getBySymbol (s : Store) (sym : String) (b : Alert) :
    b ∈ s.getBySymbol sym ↔
      ∃ id, InIdx s.symbolIndex sym id ∧ lookupA s.alerts id = some b := by
  unfold Store.getBySymbol
  cases hl : lookupA s.symbolIndex sym with
  | none =>
      simp only [List.not_mem_nil, false_iff]
      rintro ⟨id, ⟨ids, hids, _⟩, _⟩
      rw [hl] at hids
      exact Option.noConfusion hids
  | some ids =>
      rw [List.mem_filterMap]
      constructor
      · rintro ⟨id, hmem, hfind⟩
        exact ⟨id, ⟨ids, hl, hmem⟩, hfind⟩
      · rintro ⟨id, ⟨ids0, hids, hmem⟩, hfind⟩
        rw [hl] at hids
        injection hids with hids
        subst hids
        exact ⟨id, hmem, hfind⟩

/-! ### Equations for the store operations -/

theorem create_eq_none (s : Store) (a : Alert)
    (h : lookupA s.alerts a.id = none) :
    s.create a = (.ok (),
      { alerts := insertA s.alerts a.id a,
        symbolIndex := Store.addToSymbolIndex s.symbolIndex a.symbol a.id }) := by
  unfold Store.create
  rw [h]

theorem create_eq_some (s : Store) (a b : Alert)
    (h : lookupA s.alerts a.id = some b) :
    s.create a = (.error .alreadyExists, s) := by
  unfold Store.create
  rw [h]

theorem get_eq_none (s : Store) (id : String) (h : lookupA s.alerts id = none) :
    s.get id = .error .notFound := by
  unfold Store.get
  rw [h]

theorem get_eq_some (s : Store) (id : String) (a : Alert)
    (h : lookupA s.alerts id = some a) : s.get id = .ok a := by
  unfold Store.get
  rw [h]

theorem update_eq_none (s : Store) (id : String) (u : AlertUpdates)
    (h : lookupA s.alerts id = none) :
    s.update id u = (.error .notFound, s) := by
  unfold Store.update
  rw [h]

theorem update_eq_some (s : Store) (id : String) (u : AlertUpdates) (a : Alert)
    (h : lookupA s.alerts id = some a) :
    s.update id u = (.ok (applyUpdates a u),
      { alerts := insertA s.alerts id (applyUpdates a u),
        symbolIndex :=
          if a.symbol ≠ (applyUpdates a u).symbol then
            Store.addToSymbolIndex
              (Store.removeFromSymbolIndex s.symbolIndex a.symbol id)
              (applyUpdates a u).symbol id
          else s.symbolIndex }) := by
  unfold Store.update
  rw [h]

theorem delete_eq_none (s : Store) (id : String)
    (h : lookupA s.alerts id = none) : s.delete id = (.error .notFound, s) := by
  unfold Store.delete
  rw [h]

theorem delete_eq_some (s : Store) (id : String) (a : Alert)
    (h : lookupA s.alerts id = some a) :
    s.delete id = (.ok (),
      { alerts := eraseA s.alerts id,
        symbolIndex := Store.removeFromSymbolIndex s.symbolIndex a.symbol id }) := by
  unfold Store.delete
  rw [h]

theorem markTriggered_eq_none (s : Store) (id : String) (now : Int)
    (h : lookupA s.alerts id = none) :
    s.markTriggered id now = (.error .notFound, s) := by
  unfold Store.markTriggered
  rw [h]

theorem markTriggered_eq_some (s : Store) (id : String) (now : Int) (a : Alert)
    (h : lookupA s.alerts id = some a) :
    s.markTriggered id now = (.ok (),
      { s with alerts := insertA s.alerts id { a with lastTrigger := some now } }) := by
  unfold Store.markTriggered
  rw [h]

/-! ### Preservation of the store invariant -/

theorem wf_empty : Store.emptyStore.Wf := by
  refine ⟨List.nodup_nil, List.nodup_nil, ?_, ?_, ?_⟩
  · intro sym ids h
    exact Option.noConfusion h
  · rintro sym id ⟨ids, h, _⟩
    exact Option.noConfusion h
  · intro id a h
    exact Option.noConfusion h

theorem wf_create (s : Store) (a : Alert) (h : s.Wf) : (s.create a).2.Wf := by
  obtain ⟨h1, h2, h3, h4, h5⟩ := h
  cases hl : lookupA s.alerts a.id with
  | some b =>
      rw [create_eq_some s a b hl]
      exact ⟨h1, h2, h3, h4, h5⟩
  | none =>
      rw [create_eq_none s a hl]
      have hnot : ∀ sym id', InIdx s.symbolIndex sym id' → id' ≠ a.id := by
        intro sym id' hin heq
        obtain ⟨b, hb, _⟩ := h4 sym id' hin
        rw [heq, hl] at hb
        exact Option.noConfusion hb
      refine ⟨keysA_insertA_nodup s.alerts a.id a h1,
              add_keys_nodup s.symbolIndex a.symbol a.id h2,
              add_bucketsOk s.symbolIndex a.symbol a.id h3, ?_, ?_⟩
      · intro sym id' hin
        rw [inIdx_add] at hin
        rcases hin with hin0 | ⟨hsym, hid⟩
        · obtain ⟨b, hb, hbs⟩ := h4 sym id' hin0
          refine ⟨b, ?_, hbs⟩
          rw [lookupA_insertA_ne s.alerts a.id id' a (hnot sym id' hin0)]
          exact hb
        · subst hsym
          subst hid
          exact ⟨a, lookupA_insertA_self s.alerts a.id a, rfl⟩
      · intro id' b hb'
        by_cases hid : id' = a.id
        · rw [hid] at hb' ⊢
          rw [lookupA_insertA_self s.alerts a.id a] at hb'
          have hba : b = a := (Option.some.inj hb').symm
          rw [hba]
          exact (inIdx_add s.symbolIndex a.symbol a.id a.symbol a.id).mpr
            (Or.inr ⟨rfl, rfl⟩)
        · rw [lookupA_insertA_ne s.alerts a.id id' a hid] at hb'
          exact (inIdx_add s.symbolIndex a.symbol a.id b.symbol id').mpr
            (Or.inl (h5 id' b hb'))

theorem wf_markTriggered (s : Store) (id : String) (now : Int) (h : s.Wf) :
    (s.markTriggered id now).2.Wf := by
  obtain ⟨h1, h2, h3, h4, h5⟩ := h
  cases hl : lookupA s.alerts id with
  | none =>
      rw [markTriggered_eq_none s id now hl]
      exact ⟨h1, h2, h3, h4, h5⟩
  | some a =>
      rw [markTriggered_eq_some s id now a hl]
      refine ⟨keysA_insertA_nodup s.alerts id _ h1, h2, h3, ?_, ?_⟩
      · intro sym id' hin
        obtain ⟨b, hb, hbs⟩ := h4 sym id' hin
        by_cases hid : id' = id
        · rw [hid] at hb ⊢
          rw [hl] at hb
          have hba : b = a := (Option.some.inj hb).symm
          refine ⟨{ a with lastTrigger := some now },
                  lookupA_insertA_self s.alerts id _, ?_⟩
          show a.symbol = sym
          rw [← hba]
          exact hbs
        · refine ⟨b, ?_, hbs⟩
          rw [lookupA_insertA_ne s.alerts id id' _ hid]
          exact hb
      · intro id' b hb'
        by_cases hid : id' = id
        · rw [hid] at hb' ⊢
          rw [lookupA_insertA_self s.alerts id _] at hb'
          have hba : b = { a with lastTrigger := some now } :=
            (Option.some.inj hb').symm
          rw [hba]
          show InIdx s.symbolIndex a.symbol id
          exact h5 id a hl
        · rw [lookupA_insertA_ne s.alerts id id' _ hid] at hb'
          exact h5 id' b hb'

theorem wf_delete (s : Store) (id : String) (h : s.Wf) : (s.delete id).2.Wf := by
  obtain ⟨h1, h2, h3, h4, h5⟩ := h
  cases hl : lookupA s.alerts id with
  | none =>
      rw [delete_eq_none s id hl]
      exact ⟨h1, h2, h3, h4, h5⟩
  | some a =>
      rw [delete_eq_some s id a hl]
      refine ⟨keysA_eraseA_nodup s.alerts id h1,
              remove_keys_nodup s.symbolIndex a.symbol id h2,
              remove_bucketsOk s.symbolIndex a.symbol id h3, ?_, ?_⟩
      · intro sym id' hin
        rw [inIdx_remove s.symbolIndex a.symbol id sym id' h3] at hin
        obtain ⟨hin0, hne⟩ := hin
        obtain ⟨b, hb, hbs⟩ := h4 sym id' hin0
        have hid : id' ≠ id := by
          intro heq
          subst heq
          rw [hl] at hb
          injection hb with hb
          subst hb
          exact hne ⟨hbs.symm, rfl⟩
        refine ⟨b, ?_, hbs⟩
        rw [lookupA_eraseA_ne s.alerts id id' hid]
        exact hb
      · intro id' b hb'
        by_cases hid : id' = id
        · subst hid
          rw [lookupA_eraseA_self s.alerts id'] at hb'
          exact Option.noConfusion hb'
        · rw [lookupA_eraseA_ne s.alerts id id' hid] at hb'
          refine (inIdx_remove s.symbolIndex a.symbol id b.symbol id' h3).mpr
            ⟨h5 id' b hb', ?_⟩
          rintro ⟨_, heq⟩
          exact hid heq

theorem wf_update (s : Store) (id : String) (u : AlertUpdates) (h : s.Wf) :
    (s.update id u).2.Wf := by
  obtain ⟨h1, h2, h3, h4, h5⟩ := h
  cases hl : lookupA s.alerts id with
  | none =>
      rw [update_eq_none s id u hl]
      exact ⟨h1, h2, h3, h4, h5⟩
  | some a =>
      rw [update_eq_some s id u a hl]
      by_cases hsym : a.symbol ≠ (applyUpdates a u).symbol
      · rw [if_pos hsym]
        refine ⟨keysA_insertA_nodup s.alerts id _ h1,
                add_keys_nodup _ _ _ (remove_keys_nodup s.symbolIndex a.symbol id h2),
                add_bucketsOk _ _ _ (remove_bucketsOk s.symbolIndex a.symbol id h3),
                ?_, ?_⟩
        · intro sym id' hin
          rw [inIdx_add] at hin
          rcases hin with hin1 | ⟨hseq, hideq⟩
          · rw [inIdx_remove s.symbolIndex a.symbol id sym id' h3] at hin1
            obtain ⟨hin0, hne⟩ := hin1
            obtain ⟨b, hb, hbs⟩ := h4 sym id' hin0
            have hid : id' ≠ id := by
              intro heq
              rw [heq, hl] at hb
              have hba : b = a := (Option.some.inj hb).symm
              have hsa : sym = a.symbol := by
                rw [← hbs, hba]
              exact hne ⟨hsa, heq⟩
            refine ⟨b, ?_, hbs⟩
            rw [lookupA_insertA_ne s.alerts id id' _ hid]
            exact hb
          · rw [hseq, hideq]
            exact ⟨applyUpdates a u, lookupA_insertA_self s.alerts id _, rfl⟩
        · intro id' b hb'
          by_cases hid : id' = id
          · rw [hid] at hb' ⊢
            rw [lookupA_insertA_self s.alerts id _] at hb'
            have hba : b = applyUpdates a u := (Option.some.inj hb').symm
            rw [hba]
            exact (inIdx_add _ _ _ _ _).mpr (Or.inr ⟨rfl, rfl⟩)
          · rw [lookupA_insertA_ne s.alerts id id' _ hid] at hb'
            refine (inIdx_add _ _ _ _ _).mpr (Or.inl ?_)
            refine (inIdx_remove s.symbolIndex a.symbol id b.symbol id' h3).mpr
              ⟨h5 id' b hb', ?_⟩
            rintro ⟨_, heq⟩
            exact hid heq
      · rw [if_neg hsym]
        rw [not_not] at hsym
        refine ⟨keysA_insertA_nodup s.alerts id _ h1, h2, h3, ?_, ?_⟩
        · intro sym id' hin
          obtain ⟨b, hb, hbs⟩ := h4 sym id' hin
          by_cases hid : id' = id
          · rw [hid] at hb ⊢
            rw [hl] at hb
            have hba : b = a := (Option.some.inj hb).symm
            refine ⟨applyUpdates a u, lookupA_insertA_self s.alerts id _, ?_⟩
            rw [← hsym, ← hba]
            exact hbs
          · refine ⟨b, ?_, hbs⟩
            rw [lookupA_insertA_ne s.alerts id id' _ hid]
            exact hb
        · intro id' b hb'
          by_cases hid : id' = id
          · rw [hid] at hb' ⊢
            rw [lookupA_insertA_self s.alerts id _] at hb'
            have hba : b = applyUpdates a u := (Option.some.inj hb').symm
            rw [hba, ← hsym]
            exact h5 id a hl
          · rw [lookupA_insertA_ne s.alerts id id' _ hid] at hb'
            exact h5 id' b hb'

theorem wf_reachable {s : Store} (h : Store.Reachable s) : s.Wf := by
  induction h with
  | empty => exact wf_empty
  | create a _ ih => exact wf_create _ a ih
  | update id u _ ih => exact wf_update _ id u ih
  | delete id _ ih => exact wf_delete _ id ih
  | markTriggered id now _ ih => exact wf_markTriggered _ id now ih

/-! ### Engine helper lemmas -/

theorem shouldTriggerAlert_none (e : Engine) (a : Alert) (price : ℚ) (now : Int)
    (hq : a.shouldTrigger price = true)
    (h : lookupA e.cooldownMap a.id = none) :
    e.shouldTriggerAlert a price now = true := by
  unfold Engine.shouldTriggerAlert
  rw [hq, h]
  rfl

theorem shouldTriggerAlert_some (e : Engine) (a : Alert) (price : ℚ) (now : Int)
    (last : Int) (hq : a.shouldTrigger price = true)
    (h : lookupA e.cooldownMap a.id = some last) :
    e.shouldTriggerAlert a price now =
      if now - last < e.cooldown then false else true := by
  unfold Engine.shouldTriggerAlert
  rw [hq, h]
  rfl

theorem shouldTriggerAlert_notQualifying (e : Engine) (a : Alert) (price : ℚ)
    (now : Int) (hq : a.shouldTrigger price = false) :
    e.shouldTriggerAlert a price now = false := by
  unfold Engine.shouldTriggerAlert
  rw [hq]
  rfl

theorem evaluateAlertTick_true (e : Engine) (s : Store) (a : Alert) (price : ℚ)
    (now : Int) (h : e.shouldTriggerAlert a price now = true) :
    e.evaluateAlertTick s a price now = e.triggerAlert s a price now := by
  unfold Engine.evaluateAlertTick
  rw [h]
  rfl

theorem evaluateAlertTick_false (e : Engine) (s : Store) (a : Alert) (price : ℚ)
    (now : Int) (h : e.shouldTriggerAlert a price now = false) :
    e.evaluateAlertTick s a price now =
      { engine := e, store := s, published := [], loggedError := false } := by
  unfold Engine.evaluateAlertTick
  rw [h]
  rfl

theorem triggerAlert_engine (e : Engine) (s : Store) (a : Alert) (price : ℚ)
    (now : Int) :
    (e.triggerAlert s a price now).engine =
      { e with cooldownMap := insertA e.cooldownMap a.id now } := rfl

theorem triggerAlert_published (e : Engine) (s : Store) (a : Alert) (price : ℚ)
    (now : Int) :
    (e.triggerAlert s a price now).published =
      [{ alert := a, triggeredPrice := price, timestamp := now }] := rfl

/-! ### Claim theorems -/

/-- C1: for every Alert and every price, `ShouldTrigger price` returns true if
and only if the alert is enabled and its comparator holds (GT iff
price>threshold, GTE iff price>=threshold, LT iff price<threshold, LTE iff
price<=threshold, EQ iff the absolute difference to the threshold is below
0.001); in particular a disabled alert never triggers, regardless of
comparator, threshold and price. -/
theorem claim1_shouldTrigger_correct (a : Alert) (price : ℚ) :
    (a.shouldTrigger price = true ↔
      (a.enabled = true ∧ comparatorHolds a.comparator price a.threshold)) ∧
    (a.enabled = false → a.shouldTrigger price = false) := by
  have habs : floatAbs (price - a.threshold) = |price - a.threshold| := by
    unfold floatAbs
    rcases lt_or_ge (price - a.threshold) 0 with h | h
    · rw [if_pos h, abs_of_neg h]
    · rw [if_neg (not_lt.mpr h), abs_of_nonneg h]
  constructor
  · unfold Alert.shouldTrigger comparatorHolds
    cases he : a.enabled with
    | false => simp
    | true => cases hc : a.comparator <;> simp [habs, epsilon]
  · intro h
    unfold Alert.shouldTrigger
    rw [h]
    simp

/-- Witness for C1 at a concrete alert and price. -/
theorem claim1_shouldTrigger_correct_witness :
    (alertEx.shouldTrigger 50001 = true ↔
      (alertEx.enabled = true ∧
       comparatorHolds alertEx.comparator 50001 alertEx.threshold)) ∧
    (alertEx.enabled = false → alertEx.shouldTrigger 50001 = false) :=
  claim1_shouldTrigger_correct alertEx 50001

/-- C2: for an alert that satisfies its comparator on a tick's price, the
engine proceeds to trigger iff the cooldown map has no entry for the alert id
or the elapsed time since the recorded last trigger is at least the
configured cooldown; on proceeding it records the current time against the
alert id; with cooldown 30, two qualifying ticks spaced under 30 apart yield
exactly one trigger and spaced at or after 30 apart yield two. -/
theorem claim2_cooldown (e : Engine) (s : Store) (a : Alert) (price : ℚ)
    (now : Int) (hq : a.shouldTrigger price = true) :
    (e.shouldTriggerAlert a price now = true ↔
      (lookupA e.cooldownMap a.id = none ∨
       ∃ last, lookupA e.cooldownMap a.id = some last ∧
         e.cooldown ≤ now - last)) ∧
    (e.shouldTriggerAlert a price now = true →
      lookupA (e.evaluateAlertTick s a price now).engine.cooldownMap a.id
        = some now) ∧
    (∀ (t1 t2 : Int) (p1 p2 : ℚ),
      e.cooldown = 30 →
      lookupA e.cooldownMap a.id = none →
      a.shouldTrigger p1 = true → a.shouldTrigger p2 = true →
      ((t2 - t1 < 30 → e.twoTickTriggerCount s a p1 p2 t1 t2 = 1) ∧
       (30 ≤ t2 - t1 → e.twoTickTriggerCount s a p1 p2 t1 t2 = 2))) := by
  refine ⟨?_, ?_, ?_⟩
  · constructor
    · intro h
      cases hc : lookupA e.cooldownMap a.id with
      | none => exact Or.inl rfl
      | some last =>
          rw [shouldTriggerAlert_some e a price now last hq hc] at h
          by_cases hlt : now - last < e.cooldown
          · rw [if_pos hlt] at h
            exact Bool.noConfusion h
          · exact Or.inr ⟨last, rfl, le_of_not_lt hlt⟩
    · rintro (hc | ⟨last, hc, hle⟩)
      · exact shouldTriggerAlert_none e a price now hq hc
      · rw [shouldTriggerAlert_some e a price now last hq hc,
            if_neg (not_lt.mpr hle)]
  · intro h
    rw [evaluateAlertTick_true e s a price now h, triggerAlert_engine]
    exact lookupA_insertA_self e.cooldownMap a.id now
  · intro t1 t2 p1 p2 hcd hc hq1 hq2
    have h1 : e.shouldTriggerAlert a p1 t1 = true :=
      shouldTriggerAlert_none e a p1 t1 hq1 hc
    have hstep1 : e.evaluateAlertTick s a p1 t1 = e.triggerAlert s a p1 t1 :=
      evaluateAlertTick_true e s a p1 t1 h1
    have hmap1 :
        lookupA (e.triggerAlert s a p1 t1).engine.cooldownMap a.id = some t1 := by
      rw [triggerAlert_engine]
      exact lookupA_insertA_self e.cooldownMap a.id t1
    have hcd1 : (e.triggerAlert s a p1 t1).engine.cooldown = e.cooldown := rfl
    constructor
    · intro hlt
      have h2 : (e.triggerAlert s a p1 t1).engine.shouldTriggerAlert a p2 t2
          = false := by
        rw [shouldTriggerAlert_some _ a p2 t2 t1 hq2 hmap1, hcd1, hcd]
        rw [if_pos hlt]
      show ((e.evaluateAlertTick s a p1 t1).published ++
            ((e.evaluateAlertTick s a p1 t1).engine.evaluateAlertTick
              (e.evaluateAlertTick s a p1 t1).store a p2 t2).published).length = 1
      rw [hstep1,
          evaluateAlertTick_false _ (e.triggerAlert s a p1 t1).store a p2 t2 h2,
          triggerAlert_published]
      rfl
    · intro hle
      have h2 : (e.triggerAlert s a p1 t1).engine.shouldTriggerAlert a p2 t2
          = true := by
        rw [shouldTriggerAlert_some _ a p2 t2 t1 hq2 hmap1, hcd1, hcd]
        rw [if_neg (not_lt.mpr hle)]
      show ((e.evaluateAlertTick s a p1 t1).published ++
            ((e.evaluateAlertTick s a p1 t1).engine.evaluateAlertTick
              (e.evaluateAlertTick s a p1 t1).store a p2 t2).published).length = 2
      rw [hstep1,
          evaluateAlertTick_true _ (e.triggerAlert s a p1 t1).store a p2 t2 h2,
          triggerAlert_published, triggerAlert_published]
      rfl

/-- Witness for C2: a qualifying price, the running engine with empty
cooldown map, and concrete tick times 0 and 10 (under cooldown) and 0 and 40
(past cooldown). -/
theorem claim2_cooldown_witness :
    ((engineEx.shouldTriggerAlert alertEx 50001 0 = true ↔
       (lookupA engineEx.cooldownMap alertEx.id = none ∨
        ∃ last, lookupA engineEx.cooldownMap alertEx.id = some last ∧
          engineEx.cooldown ≤ 0 - last)) ∧
     (engineEx.shouldTriggerAlert alertEx 50001 0 = true →
       lookupA (engineEx.evaluateAlertTick storeEx alertEx 50001 0).engine.cooldownMap
         alertEx.id = some 0) ∧
     (∀ (t1 t2 : Int) (p1 p2 : ℚ),
       engineEx.cooldown = 30 →
       lookupA engineEx.cooldownMap alertEx.id = none →
       alertEx.shouldTrigger p1 = true → alertEx.shouldTrigger p2 = true →
       ((t2 - t1 < 30 →
          engineEx.twoTickTriggerCount storeEx alertEx p1 p2 t1 t2 = 1) ∧
        (30 ≤ t2 - t1 →
          engineEx.twoTickTriggerCount storeEx alertEx p1 p2 t1 t2 = 2)))) :=
  claim2_cooldown engineEx storeEx alertEx 50001 0 (by decide)

/-- C6: for every alert in the engine's trigger path, a failure of
`Store.MarkTriggered` (for example because the alert was deleted
concurrently) is logged and does not prevent the `AlertTrigger` from being
constructed and published to the trigger bus; the trigger-path function is
total, so no branch aborts the dispatch loop. -/
theorem claim6_markTriggered_failure (e : Engine) (s : Store) (a : Alert)
    (price : ℚ) (now : Int) :
    (e.triggerAlert s a price now).published =
      [{ alert := a, triggeredPrice := price, timestamp := now }] ∧
    (lookupA s.alerts a.id = none →
      (e.triggerAlert s a price now).loggedError = true ∧
      (e.triggerAlert s a price now).store = s ∧
      (e.triggerAlert s a price now).published =
        [{ alert := a, triggeredPrice := price, timestamp := now }]) := by
  refine ⟨rfl, ?_⟩
  intro h
  unfold Engine.triggerAlert
  rw [markTriggered_eq_none s a.id now h]
  exact ⟨rfl, rfl, rfl⟩

/-- Witness for C6: the alert is absent from the empty store, so
`MarkTriggered` fails, yet the trigger is still published. -/
theorem claim6_markTriggered_failure_witness :
    ((engineEx.triggerAlert Store.emptyStore alertEx 50001 0).published =
      [{ alert := alertEx, triggeredPrice := 50001, timestamp := 0 }] ∧
     (lookupA Store.emptyStore.alerts alertEx.id = none →
       (engineEx.triggerAlert Store.emptyStore alertEx 50001 0).loggedError = true ∧
       (engineEx.triggerAlert Store.emptyStore alertEx 50001 0).store
         = Store.emptyStore ∧
       (engineEx.triggerAlert Store.emptyStore alertEx 50001 0).published =
         [{ alert := alertEx, triggeredPrice := 50001, timestamp := 0 }])) :=
  claim6_markTriggered_failure engineEx Store.emptyStore alertEx 50001 0

/-- C8: neither `Broker.Publish` nor `Engine.ProcessTick` can return an error
(their Go signatures return nothing); on an open channel, a full bounded
queue drops the item leaving the queue unchanged, and a non-full queue gets
the item appended — the producer never blocks on consumer state. -/
theorem claim8_publish_never_errors (b : Broker) (e : Engine) (t : Tick)
    (hb : b.tickChan.closed = false) (he : e.tickChan.closed = false) :
    (¬ b.tickChan.buf.length < b.tickChan.capacity → b.publish t = some b) ∧
    (b.tickChan.buf.length < b.tickChan.capacity →
      b.publish t = some
        { b with tickChan := { b.tickChan with buf := b.tickChan.buf ++ [t] } }) ∧
    (¬ e.tickChan.buf.length < e.tickChan.capacity → e.processTick t = some e) ∧
    (e.tickChan.buf.length < e.tickChan.capacity →
      e.processTick t = some
        { e with tickChan := { e.tickChan with buf := e.tickChan.buf ++ [t] } }) := by
  refine ⟨?_, ?_, ?_, ?_⟩
  · intro hfull
    unfold Broker.publish Chan.trySend
    rw [if_neg (by rw [hb]; simp), if_neg hfull]
    rfl
  · intro hroom
    unfold Broker.publish Chan.trySend
    rw [if_neg (by rw [hb]; simp), if_pos hroom]
    rfl
  · intro hfull
    unfold Engine.processTick Chan.trySend
    rw [if_neg (by rw [he]; simp), if_neg hfull]
    rfl
  · intro hroom
    unfold Engine.processTick Chan.trySend
    rw [if_neg (by rw [he]; simp), if_pos hroom]
    rfl

/-- Witness for C8 at a fresh (open, non-full) broker and engine. -/
theorem claim8_publish_never_errors_witness :
    ((¬ brokerEx.tickChan.buf.length < brokerEx.tickChan.capacity →
        brokerEx.publish tickEx = some brokerEx) ∧
     (brokerEx.tickChan.buf.length < brokerEx.tickChan.capacity →
        brokerEx.publish tickEx = some
          { brokerEx with tickChan :=
              { brokerEx.tickChan with buf := brokerEx.tickChan.buf ++ [tickEx] } }) ∧
     (¬ engineEx.tickChan.buf.length < engineEx.tickChan.capacity →
        engineEx.processTick tickEx = some engineEx) ∧
     (engineEx.tickChan.buf.length < engineEx.tickChan.capacity →
        engineEx.processTick tickEx = some
          { engineEx with tickChan :=
              { engineEx.tickChan with buf := engineEx.tickChan.buf ++ [tickEx] } })) :=
  claim8_publish_never_errors brokerEx engineEx tickEx rfl rfl

/-- C10: `Stop` on the broker, the engine, and the trigger bus is a no-op
when the component is not running; when running, it closes the internal queue
channel, and a subsequent `Publish` or `ProcessTick` performs a send on a
closed channel and panics (modelled as `none`) rather than silently dropping
the item. -/
theorem claim10_stop_closes_queue (b : Broker) (e : Engine) (tb : TriggerBus)
    (t : Tick) (trig : AlertTrigger) :
    (b.running = false → b.stop = b) ∧
    (b.running = true →
      b.stop.tickChan.closed = true ∧ b.stop.publish t = none) ∧
    (e.running = false → e.stop = e) ∧
    (e.running = true →
      e.stop.tickChan.closed = true ∧ e.stop.processTick t = none) ∧
    (tb.running = false → tb.stop = tb) ∧
    (tb.running = true →
      tb.stop.triggerChan.closed = true ∧ tb.stop.publish trig = none) := by
  refine ⟨?_, ?_, ?_, ?_, ?_, ?_⟩
  · intro h
    unfold Broker.stop
    rw [h]
    rfl
  · intro h
    unfold Broker.stop
    rw [h]
    exact ⟨rfl, rfl⟩
  · intro h
    unfold Engine.stop
    rw [h]
    rfl
  · intro h
    unfold Engine.stop
    rw [h]
    exact ⟨rfl, rfl⟩
  · intro h
    unfold TriggerBus.stop
    rw [h]
    rfl
  · intro h
    unfold TriggerBus.stop
    rw [h]
    exact ⟨rfl, rfl⟩

/-- Witness for C10 at running components. -/
theorem claim10_stop_closes_queue_witness :
    ((brokerEx.running = false → brokerEx.stop = brokerEx) ∧
     (brokerEx.running = true →
       brokerEx.stop.tickChan.closed = true ∧
       brokerEx.stop.publish tickEx = none) ∧
     (engineEx.running = false → engineEx.stop = engineEx) ∧
     (engineEx.running = true →
       engineEx.stop.tickChan.closed = true ∧
       engineEx.stop.processTick tickEx = none) ∧
     (busEx.running = false → busEx.stop = busEx) ∧
     (busEx.running = true →
       busEx.stop.triggerChan.closed = true ∧
       busEx.stop.publish triggerEx = none)) :=
  claim10_stop_closes_queue brokerEx engineEx busEx tickEx triggerEx

theorem lookupA_map {β γ : Type} (l : List (String × β)) (f : β → γ)
    (k : String) :
    lookupA (l.map (fun p => (p.1, f p.2))) k = (lookupA l k).map f := by
  induction l with
  | nil => rfl
  | cons p rest ih =>
      show (if p.1 = k then some (f p.2) else lookupA (rest.map _) k)
          = (if p.1 = k then some p.2 else lookupA rest k).map f
      by_cases hp : p.1 = k
      · rw [if_pos hp, if_pos hp]
        rfl
      · rw [if_neg hp, if_neg hp]
        exact ih

/-- C7: the broker's dispatch step delivers a tick only to subscribers whose
interest set contains the tick's symbol (an uninterested subscriber's entry,
inbox included, is left unchanged); after `Unsubscribe(id)` the id is no
longer registered, and it stays unregistered under any further sequence of
fan-outs, so no further ticks are ever delivered to that id. -/
theorem claim7_broker_isolation (b : Broker) (t : Tick) :
    (∀ sid sub, lookupA b.subscribers sid = some sub →
      sub.isInterestedIn t.symbol = false →
      lookupA (b.fanOutTick t).subscribers sid = some sub) ∧
    (∀ sid, lookupA (b.unsubscribe sid).subscribers sid = none) ∧
    (∀ sid (ticks : List Tick), lookupA b.subscribers sid = none →
      lookupA (ticks.foldl Broker.fanOutTick b).subscribers sid = none) := by
  refine ⟨?_, ?_, ?_⟩
  · intro sid sub hsub hint
    show lookupA (b.subscribers.map (fun p => (p.1, p.2.deliverTick t))) sid
        = some sub
    rw [lookupA_map b.subscribers (fun sub => sub.deliverTick t) sid, hsub]
    show some (sub.deliverTick t) = some sub
    unfold Subscriber.deliverTick
    rw [hint]
    rfl
  · intro sid
    exact lookupA_eraseA_self b.subscribers sid
  · intro sid ticks
    induction ticks generalizing b with
    | nil => exact fun h => h
    | cons t0 rest ih =>
        intro h
        refine ih (b.fanOutTick t0) ?_
        show lookupA (b.subscribers.map (fun p => (p.1, p.2.deliverTick t0))) sid
            = none
        rw [lookupA_map b.subscribers (fun sub => sub.deliverTick t0) sid, h]
        rfl

/-- Witness for C7: the ETH-only subscriber of `brokerEx` does not receive a
BTC tick, and after unsubscribing it receives nothing further. -/
theorem claim7_broker_isolation_witness :
    ((∀ sid sub, lookupA brokerEx.subscribers sid = some sub →
       sub.isInterestedIn tickEx.symbol = false →
       lookupA (brokerEx.fanOutTick tickEx).subscribers sid = some sub) ∧
     (∀ sid, lookupA (brokerEx.unsubscribe sid).subscribers sid = none) ∧
     (∀ sid (ticks : List Tick), lookupA brokerEx.subscribers sid = none →
       lookupA (ticks.foldl Broker.fanOutTick brokerEx).subscribers sid = none)) :=
  claim7_broker_isolation brokerEx tickEx

/-- C3: store round-trip — after a successful `Create(a)`, `Get(a.id)`
returns a value equal to `a`; after `Delete(id)`, `Get(id)` fails NotFound;
and after an `Update` that changes the symbol, `GetBySymbol` returns the
updated alert under the new symbol and not under the old one. -/
theorem claim3_store_roundtrip (s : Store) (a a0 : Alert) (id : String)
    (u : AlertUpdates) (newSym : String) :
    (lookupA s.alerts a.id = none →
       (s.create a).1 = .ok () ∧ (s.create a).2.get a.id = .ok a) ∧
    ((s.delete id).2.get id = .error .notFound) ∧
    (s.Wf → lookupA s.alerts id = some a0 → u.symbol = some newSym →
     newSym ≠ a0.symbol →
       (s.update id u).1 = .ok (applyUpdates a0 u) ∧
       applyUpdates a0 u ∈ (s.update id u).2.getBySymbol newSym ∧
       applyUpdates a0 u ∉ (s.update id u).2.getBySymbol a0.symbol) := by
  refine ⟨?_, ?_, ?_⟩
  · intro h
    rw [create_eq_none s a h]
    exact ⟨rfl, get_eq_some _ a.id a (lookupA_insertA_self s.alerts a.id a)⟩
  · cases hl : lookupA s.alerts id with
    | none =>
        rw [delete_eq_none s id hl]
        exact get_eq_none s id hl
    | some a1 =>
        rw [delete_eq_some s id a1 hl]
        exact get_eq_none _ id (lookupA_eraseA_self s.alerts id)
  · intro hwf hl hu hne
    obtain ⟨h1, h2, h3, h4, h5⟩ := hwf
    have haS : (applyUpdates a0 u).symbol = newSym := by
      unfold applyUpdates
      rw [hu]
      rfl
    have hneq : a0.symbol ≠ (applyUpdates a0 u).symbol := by
      rw [haS]
      exact fun hh => hne hh.symm
    rw [update_eq_some s id u a0 hl, if_pos hneq]
    refine ⟨rfl, ?_, ?_⟩
    · rw [mem_getBySymbol]
      refine ⟨id, ?_, lookupA_insertA_self s.alerts id _⟩
      exact (inIdx_add _ _ _ _ _).mpr (Or.inr ⟨haS.symm, rfl⟩)
    · intro hmem
      rw [mem_getBySymbol] at hmem
      obtain ⟨idw, hin, hlw⟩ := hmem
      rcases (inIdx_add _ _ _ _ _).mp hin with hin1 | ⟨hseq, hideq⟩
      · rw [inIdx_remove s.symbolIndex a0.symbol id a0.symbol idw h3] at hin1
        obtain ⟨hin0, hnm⟩ := hin1
        have hidw : idw ≠ id := fun heq => hnm ⟨rfl, heq⟩
        rw [lookupA_insertA_ne s.alerts id idw _ hidw] at hlw
        obtain ⟨b, hb, hbs⟩ := h4 a0.symbol idw hin0
        rw [hb] at hlw
        have hba : b = applyUpdates a0 u := Option.some.inj hlw
        rw [hba, haS] at hbs
        exact hne hbs
      · rw [haS] at hseq
        exact hne hseq.symm

/-- Witness for C3 at a concrete store, alert, and symbol-renaming update. -/
theorem claim3_store_roundtrip_witness :
    ((lookupA storeEx.alerts alertDisabledEx.id = none →
       (storeEx.create alertDisabledEx).1 = .ok () ∧
       (storeEx.create alertDisabledEx).2.get alertDisabledEx.id
         = .ok alertDisabledEx) ∧
     ((storeEx.delete "a1").2.get "a1" = .error .notFound) ∧
     (storeEx.Wf → lookupA storeEx.alerts "a1" = some alertEx →
      updatesEx.symbol = some "ETH" → "ETH" ≠ alertEx.symbol →
       (storeEx.update "a1" updatesEx).1 = .ok (applyUpdates alertEx updatesEx) ∧
       applyUpdates alertEx updatesEx
         ∈ (storeEx.update "a1" updatesEx).2.getBySymbol "ETH" ∧
       applyUpdates alertEx updatesEx
         ∉ (storeEx.update "a1" updatesEx).2.getBySymbol alertEx.symbol)) :=
  claim3_store_roundtrip storeEx alertDisabledEx alertEx "a1" updatesEx "ETH"

/-- C4: in every store state reachable from the empty store by Create,
Update, Delete, and MarkTriggered, an alert id appears in the symbol index
under a symbol iff the alert exists in the primary map with that current
symbol; each bucket holds an id at most once; and no empty bucket exists. -/
theorem claim4_symbolIndex_consistency (s : Store) (h : s.Reachable) :
    (∀ sym id, InIdx s.symbolIndex sym id ↔
       ∃ a, lookupA s.alerts id = some a ∧ a.symbol = sym) ∧
    (∀ sym ids, lookupA s.symbolIndex sym = some ids →
       ids.Nodup ∧ ids ≠ []) := by
  obtain ⟨h1, h2, h3, h4, h5⟩ := wf_reachable h
  refine ⟨?_, ?_⟩
  · intro sym id
    constructor
    · exact h4 sym id
    · rintro ⟨a, ha, hsym⟩
      have hin := h5 id a ha
      rw [hsym] at hin
      exact hin
  · intro sym ids hl
    obtain ⟨hne, hnd⟩ := h3 sym ids hl
    exact ⟨hnd, hne⟩

/-- Witness for C4 at the reachable store holding exactly `alertEx`. -/
theorem claim4_symbolIndex_consistency_witness :
    ((∀ sym id, InIdx storeEx.symbolIndex sym id ↔
       ∃ a, lookupA storeEx.alerts id = some a ∧ a.symbol = sym) ∧
     (∀ sym ids, lookupA storeEx.symbolIndex sym = some ids →
       ids.Nodup ∧ ids ≠ [])) :=
  claim4_symbolIndex_consistency storeEx
    (Store.Reachable.create alertEx Store.Reachable.empty)

/-- C5: `Update` fails NotFound for an unknown id and otherwise modifies only
the fields present in the update set, leaving the alert's id and lastTrigger
(and every other stored alert) unchanged; lastTrigger is set (to the current
time) only by `MarkTriggered`, which fails NotFound for an unknown id. -/
theorem claim5_update_frame (s : Store) (id : String) (u : AlertUpdates)
    (now : Int) :
    (lookupA s.alerts id = none →
       (s.update id u).1 = .error .notFound ∧ (s.update id u).2 = s ∧
       (s.markTriggered id now).1 = .error .notFound ∧
       (s.markTriggered id now).2 = s) ∧
    (∀ a, lookupA s.alerts id = some a →
       ∃ a', (s.update id u).1 = .ok a' ∧
         lookupA (s.update id u).2.alerts id = some a' ∧
         a'.id = a.id ∧
         a'.lastTrigger = a.lastTrigger ∧
         a'.symbol = u.symbol.getD a.symbol ∧
         a'.comparator = u.comparator.getD a.comparator ∧
         a'.threshold = u.threshold.getD a.threshold ∧
         a'.note = u.note.getD a.note ∧
         a'.enabled = u.enabled.getD a.enabled ∧
         (∀ id', id' ≠ id →
           lookupA (s.update id u).2.alerts id' = lookupA s.alerts id') ∧
         (s.markTriggered id now).1 = .ok () ∧
         lookupA (s.markTriggered id now).2.alerts id =
           some { a with lastTrigger := some now }) := by
  constructor
  · intro h
    rw [update_eq_none s id u h, markTriggered_eq_none s id now h]
    exact ⟨rfl, rfl, rfl, rfl⟩
  · intro a h
    rw [update_eq_some s id u a h, markTriggered_eq_some s id now a h]
    refine ⟨applyUpdates a u, rfl, lookupA_insertA_self s.alerts id _,
            rfl, rfl, rfl, rfl, rfl, rfl, rfl, ?_, rfl,
            lookupA_insertA_self s.alerts id _⟩
    intro id' hne
    exact lookupA_insertA_ne s.alerts id id' _ hne

/-- Witness for C5 at the concrete store and symbol-renaming update. -/
theorem claim5_update_frame_witness :
    ((lookupA storeEx.alerts "a9" = none →
       (storeEx.update "a9" updatesEx).1 = .error .notFound ∧
       (storeEx.update "a9" updatesEx).2 = storeEx ∧
       (storeEx.markTriggered "a9" 7).1 = .error .notFound ∧
       (storeEx.markTriggered "a9" 7).2 = storeEx) ∧
     (∀ a, lookupA storeEx.alerts "a9" = some a →
       ∃ a', (storeEx.update "a9" updatesEx).1 = .ok a' ∧
         lookupA (storeEx.update "a9" updatesEx).2.alerts "a9" = some a' ∧
         a'.id = a.id ∧
         a'.lastTrigger = a.lastTrigger ∧
         a'.symbol = updatesEx.symbol.getD a.symbol ∧
         a'.comparator = updatesEx.comparator.getD a.comparator ∧
         a'.threshold = updatesEx.threshold.getD a.threshold ∧
         a'.note = updatesEx.note.getD a.note ∧
         a'.enabled = updatesEx.enabled.getD a.enabled ∧
         (∀ id', id' ≠ "a9" →
           lookupA (storeEx.update "a9" updatesEx).2.alerts id'
             = lookupA storeEx.alerts id') ∧
         (storeEx.markTriggered "a9" 7).1 = .ok () ∧
         lookupA (storeEx.markTriggered "a9" 7).2.alerts "a9" =
           some { a with lastTrigger := some 7 })) :=
  claim5_update_frame storeEx "a9" updatesEx 7

/-- C9 evaluated at the failing input: `Store.Get` returns the shallow copy
`alertCopy := *alert`, whose lastTrigger pointer aliases the stored alert's
`time.Time` cell; a caller writing 999 through the returned copy's pointer
changes the lastTrigger the Store subsequently denotes (from 100 to 999),
although no Store mutating operation ran. -/
theorem claim9_lastTrigger_aliasing :
    ptrGet ptrStoreEx "a1" = .ok (shallowCopy ptrAlertEx) ∧
    readLastTrigger heapEx ptrAlertEx = some 100 ∧
    readLastTrigger
      (writeThroughLastTrigger heapEx (shallowCopy ptrAlertEx) 999)
      ptrAlertEx = some 999 :=
  ⟨rfl, rfl, rfl⟩

end CryptoAlerts
